import Mathlib

/-
Verification of the scene-search subsystem of s1ard (src/S1_NRB/search.py)
against its natural-language specification.  The Python code is shallowly
embedded: timestamps of the form YYYYMMDDTHHMMSS are modelled as natural
numbers (seconds; the string format is order-isomorphic to chronological
order), scene locations are strings, catalog backends and the local file
system are environment parameters, and Python exceptions are modelled with
`Except` / `Option` result types.
-/

deriving instance DecidableEq for Except

namespace S1NRB

/-! ## String ordering (Python `sorted` on str compares code points) -/

/-- Lexicographic comparison of character lists by code point; this is the
comparison Python uses to sort `str` values. -/
def leChars : List Char → List Char → Bool
  | [], _ => true
  | _ :: _, [] => false
  | a :: as, b :: bs =>
    if a.toNat < b.toNat then true
    else if b.toNat < a.toNat then false
    else leChars as bs

/-- Python string comparison `s <= t` (lexicographic by code point). -/
def strLe (s t : String) : Bool := leChars s.data t.data

/-- Relation form of `strLe`, used for sortedness statements. -/
def StrLeR (s t : String) : Prop := strLe s t = true

instance : DecidableRel StrLeR :=
  fun s t => inferInstanceAs (Decidable (strLe s t = true))

/-- Python `sorted` on a list of strings: the ascending reordering by
code-point lexicographic order (duplicates are identical strings, so
stability is irrelevant). -/
def pySorted (l : List String) : List String := l.insertionSort StrLeR

/-! ## Retry loop of `STACArchive` (search.py lines 114-127 and 248-262) -/

/-- Result of one backend call: success, a transient
`pystac_client.exceptions.APIError` (the only exception class caught by the
retry loops), or any other (non-transient) exception. -/
inductive Outcome (ε α : Type) where
  | ok (a : α)
  | transient (e : ε)
  | fatal (e : ε)
  deriving DecidableEq

/-- Retry loop shared by `STACArchive._open_catalog` (lines 114-127) and the
search call in `STACArchive.select` (lines 248-262): attempt `i` calls the
backend; a transient error is re-tried after `time.sleep(1)` while the
attempt counter is below `max_tries`, and is re-raised otherwise; success
and non-transient errors return immediately.  `left` is the number of
retries still allowed (`max_tries - i`).  The value is the final outcome
together with the number of attempts made and the seconds slept. -/
def retryGo (backend : Nat → Outcome ε α) : Nat → Nat → Outcome ε α × Nat × Nat
  | i, 0 => (backend i, 1, 0)
  | i, left + 1 =>
    match backend i with
    | .transient _ =>
      let r := retryGo backend (i + 1) left
      (r.1, r.2.1 + 1, r.2.2 + 1)
    | o => (o, 1, 0)

/-- Value of `self.max_tries` set in `STACArchive.__init__` (line 65). -/
def max_tries : Nat := 300

/-- Model of `STACArchive._open_catalog` (lines 114-127): `Client.open`
retried from attempt 1, with `max_tries - 1` retries remaining. -/
def open_catalog (backend : Nat → Outcome ε α) : Outcome ε α × Nat × Nat :=
  retryGo backend 1 (max_tries - 1)

/-- Model of the retry loop around `self.catalog.search` in
`STACArchive.select` (lines 248-262); identical control flow to
`_open_catalog`. -/
def catalog_search (backend : Nat → Outcome ε α) : Outcome ε α × Nat × Nat :=
  retryGo backend 1 (max_tries - 1)

/-! ## Query-to-filter translation of `STACArchive.select` (lines 180-247) -/

/-- Canonical query value for `STACArchive.select` (parameters in their
declaration order, which is also the iteration order of the `locals()`
dict the code walks).  Date values are modelled as already-formatted
`YYYYMMDDTHHMMSS` strings (the code formats `datetime` inputs to exactly
this form before use); the spatial filter records only whether a geometry
was supplied, since only the clause's presence and kind matter here. -/
structure StacQuery where
  sensor : Option (List String) := none
  product : Option (List String) := none
  acquisition_mode : Option (List String) := none
  mindate : Option String := none
  maxdate : Option String := none
  frameNumber : Option (List Nat) := none
  vectorobject : Bool := false
  deriving DecidableEq

/-- One CQL2 filter argument as built by `STACArchive.select`: a comparison
clause `{'op': op, 'args': [{'property': property}, value]}`, an `or`
combination of equality clauses (each recorded as its (op, property, value)
triple), or the `s_intersects` spatial clause (geometry payload
abstracted). -/
inductive FilterArg where
  | cmp (op : String) (property : String) (value : String)
  | orOp (args : List (String × String × String))
  | sIntersects
  deriving DecidableEq

/-- Error raised during filter construction: `lookup_platform[v]` raises
`KeyError` for a sensor value other than S1A/S1B (line 236). -/
inductive BuildErr where
  | keyError (k : String)
  deriving DecidableEq

/-- The `lookup_platform` dict of `STACArchive.select` (lines 191-192). -/
def lookup_platform : String → Option String
  | "S1A" => some "sentinel-1a"
  | "S1B" => some "sentinel-1b"
  | _ => none

/-- Uppercase hexadecimal digit for a value below 16. -/
def hexDigit (n : Nat) : Char := Char.ofNat (if n < 10 then 48 + n else 55 + n)

/-- Fuelled uppercase hexadecimal digit expansion (most significant
first); fuel at least the value itself always suffices. -/
def toHexAux : Nat → Nat → List Char
  | 0, _ => []
  | _ + 1, 0 => []
  | fuel + 1, n => toHexAux fuel (n / 16) ++ [hexDigit (n % 16)]

/-- Python format string `'{:06X}'`: uppercase hexadecimal padded with
zeros to at least six digits (line 238). -/
def hex6 (v : Nat) : String :=
  let ds := toHexAux v v
  ⟨List.replicate (6 - ds.length) '0' ++ ds⟩

/-- Lines 243-246: a single equality clause stands alone, several are
`or`-combined. -/
def combineArgs : List (String × String × String) → FilterArg
  | [a] => .cmp a.1 a.2.1 a.2.2
  | [] => .orOp []
  | a :: b :: as => .orOp (a :: b :: as)

/-- Equality clauses for each value in a multi-valued query field. -/
def eqArgs (property : String) (vals : List String) : List (String × String × String) :=
  vals.map (fun v => ("=", property, v))

/-- Contribution of an optional multi-valued field to the filter list. -/
def optClause (property : String) : Option (List String) → List FilterArg
  | none => []
  | some vs => [combineArgs (eqArgs property vs)]

/-- Sensor values translated through `lookup_platform`, left to right,
failing with `KeyError` at the first unknown value (line 236). -/
def mapLookupPlatform : List String → Except BuildErr (List (String × String × String))
  | [] => .ok []
  | v :: vs =>
    match lookup_platform v with
    | none => .error (.keyError v)
    | some p =>
      match mapLookupPlatform vs with
      | .error e => .error e
      | .ok rest => .ok (("=", "platform", p) :: rest)

/-- Date clause generated for `mindate` (lines 200-206). -/
def dateArgsMin (date_strict : Bool) : Option String → List FilterArg
  | none => []
  | some v =>
    [if date_strict then .cmp ">=" "start_datetime" v else .cmp ">=" "end_datetime" v]

/-- Date clause generated for `maxdate` (lines 207-213). -/
def dateArgsMax (date_strict : Bool) : Option String → List FilterArg
  | none => []
  | some v =>
    [if date_strict then .cmp "<=" "end_datetime" v else .cmp "<=" "start_datetime" v]

/-- Clause generated for `frameNumber`, hex-encoded (lines 237-238). -/
def frameArgs : Option (List Nat) → List FilterArg
  | none => []
  | some vs => [combineArgs (vs.map (fun v => ("=", "s1:datatake", hex6 v)))]

/-- Clause generated for `vectorobject` (lines 214-227). -/
def geomArgs : Bool → List FilterArg
  | false => []
  | true => [.sIntersects]

/-- Filter construction of `STACArchive.select` (lines 180-247): walk the
query fields in `locals()` order (sensor, product, acquisition_mode,
mindate, maxdate, frameNumber, vectorobject), skip unset fields, and
append one clause per set field; the result is the `and`-combined clause
list `flt['args']`. -/
def buildFilter (q : StacQuery) (date_strict : Bool) : Except BuildErr (List FilterArg) :=
  let tail :=
    optClause "sar:product_type" q.product ++
    optClause "sar:instrument_mode" q.acquisition_mode ++
    dateArgsMin date_strict q.mindate ++
    dateArgsMax date_strict q.maxdate ++
    frameArgs q.frameNumber ++
    geomArgs q.vectorobject
  match q.sensor with
  | none => .ok tail
  | some vs =>
    match mapLookupPlatform vs with
    | .error e => .error e
    | .ok sargs => .ok ([combineArgs sargs] ++ tail)

/-- Recognises a comparison clause on one of the two scene date fields. -/
def isDateClause : FilterArg → Bool
  | .cmp _ p _ => p == "start_datetime" || p == "end_datetime"
  | _ => false

/-! ## Duplicate resolution: `STACArchive._filter_duplicates` (lines 90-112) -/

/-- Character class `[0-9A-Z_]` of the duplicate pattern (line 92). -/
def inClassA (c : Char) : Bool :=
  (decide (48 ≤ c.toNat) && decide (c.toNat ≤ 57)) ||
  (decide (65 ≤ c.toNat) && decide (c.toNat ≤ 90)) || c == '_'

/-- Character class `[0-9T]` of the duplicate pattern (line 92). -/
def inClassB (c : Char) : Bool :=
  (decide (48 ≤ c.toNat) && decide (c.toNat ≤ 57)) || c == 'T'

/-- Match of the pattern `([0-9A-Z_]{16})_([0-9T]{15})_([0-9T]{15})`
anchored at the head of the character list, returning the three groups. -/
def tripleAtHead (cs : List Char) : Option (String × String × String) :=
  if decide (48 ≤ cs.length)
     && (cs.take 16).all inClassA
     && (cs.drop 16).take 1 == ['_']
     && ((cs.drop 17).take 15).all inClassB
     && (cs.drop 32).take 1 == ['_']
     && ((cs.drop 33).take 15).all inClassB
  then some (⟨cs.take 16⟩, ⟨(cs.drop 17).take 15⟩, ⟨(cs.drop 33).take 15⟩)
  else none

/-- Python `re.search` for the duplicate pattern: try every start position
left to right; since all pattern pieces have fixed length this is exactly
leftmost-match semantics. -/
def reSearchChars : List Char → Option (String × String × String)
  | [] => none
  | c :: cs =>
    match tripleAtHead (c :: cs) with
    | some t => some t
    | none => reSearchChars cs

/-- Search for the duplicate pattern in a string (line 97 / 100). -/
def reSearchTriple (s : String) : Option (String × String × String) :=
  reSearchChars s.data

/-- Python `os.path.basename`: the part after the last slash. -/
def basename (s : String) : String :=
  ⟨(s.data.reverse.takeWhile (fun c => !(c == '/'))).reverse⟩

/-- The (instrument-token, start, stop) triple a scene location's basename
encodes, when the pattern matches. -/
def tripleOf (s : String) : Option (String × String × String) :=
  reSearchTriple (basename s)

/-- Boolean test that two locations carry the same extracted triple. -/
def sameTriple (a b : String) : Bool := decide (tripleOf a = tripleOf b)

/-- Selection of the duplicate to keep (lines 106-108):
`group[tproc.index(max(tproc))]` is the first member attaining the maximal
manifest processing time; `f` models `STACArchive._get_proc_time`
(lines 80-88), an external manifest read returning a timestamp. -/
def pickMax (f : String → Nat) (x : String) : List String → String
  | [] => x
  | y :: ys => if f x < f y then pickMax f y ys else pickMax f x ys

/-- Inner while loop of `_filter_duplicates` (lines 98-105): collect the
consecutive entries following the group head whose triple equals the
head's triple `t0`, stopping at the first mismatch; `none` models the
`AttributeError` raised when `re.search` fails on a reached entry. -/
def groupSpan (t0 : String × String × String) :
    List String → Option (List String × List String)
  | [] => some ([], [])
  | y :: ys =>
    match tripleOf y with
    | none => none
    | some t =>
      if t = t0 then
        match groupSpan t0 ys with
        | none => none
        | some (g, r) => some (y :: g, r)
      else some ([], y :: ys)

/-- Outer while loop of `_filter_duplicates` (lines 94-111), fuelled by
the list length: the loop index advances past at least one entry per
iteration, so fuel equal to the list length is never exhausted and the
fuel-0 branch is unreachable. -/
def fdGo (f : String → Nat) : Nat → List String → Option (List String)
  | _, [] => some []
  | 0, _ :: _ => none
  | fuel + 1, x :: rest =>
    match tripleOf x with
    | none => none
    | some t =>
      match groupSpan t rest with
      | none => none
      | some (g, r) =>
        match fdGo f fuel r with
        | none => none
        | some tail => some ((if g = [] then x else pickMax f x g) :: tail)

/-- `STACArchive._filter_duplicates` (lines 90-112): sort the locations as
Python `sorted` does, then reduce each consecutive same-triple run to one
survivor; `none` models the `AttributeError` raised when some basename
does not match the pattern. -/
def filter_duplicates (f : String → Nat) (scenes : List String) : Option (List String) :=
  fdGo f (pySorted scenes).length (pySorted scenes)

/-- Maximal consecutive runs of a list under a Boolean relation between
adjacent elements; with `sameTriple` this yields the duplicate groups of
a sorted location list. -/
def runsBy (eqb : String → String → Bool) : List String → List (List String)
  | [] => []
  | [x] => [[x]]
  | x :: y :: rest =>
    match runsBy eqb (y :: rest) with
    | [] => [[x]]
    | r :: rs => if eqb x y then (x :: r) :: rs else [x] :: r :: rs

/-- Concrete scene location used in examples (directory `/a/`). -/
def dupA : String := "/a/S1A_IW_GRDH_1SDV_20210101T000000_20210101T000100"

/-- Concrete scene location used in examples (directory `/m/`, a
different acquisition). -/
def dupM : String := "/m/S1A_IW_GRDH_1SDV_20210101T000200_20210101T000300"

/-- Concrete scene location used in examples (directory `/z/`, same
(token, start, stop) triple as `dupA`). -/
def dupZ : String := "/z/S1A_IW_GRDH_1SDV_20210101T000000_20210101T000100"

/-! ## Result resolution of `STACArchive.select` (lines 263-277) -/

/-- A STAC search result item, reduced to the hrefs of its assets in dict
insertion order; the code uses only the first asset's href (line 266). -/
structure StacItem where
  assetHrefs : List String
  deriving DecidableEq

/-- Errors of the result-resolution loop: `IndexError` for an item with no
assets, `AttributeError` when an href lacks `.SAFE` (or, later, when a
resolved basename fails the duplicate pattern), and the
`RuntimeError('scene does not exist locally:', path)` of line 274. -/
inductive SelectErr where
  | indexError
  | attributeError
  | notFound (path : String)
  deriving DecidableEq

/-- The local file system as seen by the code: `Path(path).exists()` and
`os.path.realpath`. -/
structure LocalFS where
  pathExists : String → Bool
  realpath : String → String

/-- Index just past the first occurrence of `.SAFE`
(`re.search(r'\.SAFE', href).end()`, line 268). -/
def safeEnd : List Char → Option Nat
  | [] => none
  | c :: cs =>
    if (c :: cs).take 5 = ['.', 'S', 'A', 'F', 'E'] then some 5
    else
      match safeEnd cs with
      | none => none
      | some n => some (n + 1)

/-- Truncation of an asset href just after its `.SAFE` component
(line 268); `none` models the `AttributeError` when `.SAFE` is absent. -/
def truncateSAFE (href : String) : Option String :=
  match safeEnd href.data with
  | none => none
  | some n => some ⟨href.data.take n⟩

/-- Python `re.sub('^file://', '', path)` (line 269). -/
def stripFileScheme (s : String) : String :=
  if s.data.take 7 = "file://".data then ⟨s.data.drop 7⟩ else s

/-- Per-item path resolution of `STACArchive.select` (lines 264-275): take
the first asset's href, truncate it after `.SAFE`, strip a leading
`file://`; an existing path is replaced by its real path, a missing one
raises when existence checking is requested and passes through
otherwise. -/
def resolve_path (fs : LocalFS) (check_exist : Bool) (item : StacItem) :
    Except SelectErr String :=
  match item.assetHrefs with
  | [] => .error .indexError
  | href :: _ =>
    match truncateSAFE href with
    | none => .error .attributeError
    | some p =>
      let path := stripFileScheme p
      if fs.pathExists path then .ok (fs.realpath path)
      else if check_exist then .error (.notFound path) else .ok path

/-- The path whose local existence line 270 tests, when resolution is
defined for the item. -/
def resolvedPath (item : StacItem) : Option String :=
  match item.assetHrefs with
  | [] => none
  | href :: _ =>
    match truncateSAFE href with
    | none => none
    | some p => some (stripFileScheme p)

/-- Loop over the search-result items (lines 263-275), accumulating
resolved paths in order and aborting at the first raised error. -/
def resolveAll (fs : LocalFS) (check_exist : Bool) :
    List StacItem → Except SelectErr (List String)
  | [] => .ok []
  | it :: rest =>
    match resolve_path fs check_exist it with
    | .error e => .error e
    | .ok p =>
      match resolveAll fs check_exist rest with
      | .error e => .error e
      | .ok ps => .ok (p :: ps)

/-- Post-processing of `STACArchive.select` (lines 263-277): resolve every
search-result item, then filter duplicates; `f` models
`_get_proc_time`. -/
def stac_select_post (fs : LocalFS) (check_exist : Bool) (f : String → Nat)
    (items : List StacItem) : Except SelectErr (List String) :=
  match resolveAll fs check_exist items with
  | .error e => .error e
  | .ok out =>
    match filter_duplicates f out with
    | none => .error .attributeError
    | some keep => .ok keep

/-- Feature returned by `asf.search` in `asf_select`: its scene name and
its acquisition start/stop instants (seconds; parsed from the
`startTime` / `stopTime` properties). -/
structure AsfFeature where
  sceneName : String
  startTime : Nat
  stopTime : Nat
  deriving DecidableEq

/-- Strict-date post-filter of `asf_select` (lines 407-410): under strict
semantics only features with `start <= startTime` and `stopTime <= stop`
are kept; under non-strict semantics the feature list is unchanged. -/
def asf_date_filter (date_strict : Bool) (start stop : Nat)
    (features : List AsfFeature) : List AsfFeature :=
  if date_strict then
    features.filter (fun x => decide (start ≤ x.startTime) && decide (x.stopTime ≤ stop))
  else features

/-! ## Completeness check: `check_acquisition_completeness` (lines 548-645) -/

/-- Time-buffering utility.  Modelled from the spec: `buffer_time` lives
in `S1_NRB.ancillary`, which is not among the sources under verification;
spec section 6 defines it as
`buffer(start, stop, seconds) -> (start - seconds, stop + seconds)`.
Timestamps are modelled as seconds (the `YYYYMMDDTHHMMSS` strings the code
compares are order-isomorphic to these). -/
def buffer_time (start stop : Nat) (seconds : Nat) : Nat × Nat :=
  (start - seconds, stop + seconds)

/-- A Sentinel-1 scene as used by the completeness check: location,
identity attributes, acquisition window, and data-take slice position
(`meta['sliceNumber']` / `meta['totalSlices']`; pyroSAR may report -1,
hence `Int`). -/
structure SceneID where
  scene : String
  sensor : String
  product : String
  acquisition_mode : String
  start : Nat
  stop : Nat
  sliceNumber : Int
  totalSlices : Int
  deriving DecidableEq

/-- Query issued to `asf_select` by the completeness check: sensor,
product, mode, and the buffered window. -/
structure RefQuery where
  sensor : String
  product : String
  acquisition_mode : String
  mindate : Nat
  maxdate : Nat
  deriving DecidableEq

/-- Query issued to `archive.select`: sensor, product, mode, the buffered
window, and the date-strictness flag. -/
structure ArchQuery where
  sensor : String
  product : String
  acquisition_mode : String
  mindate : Nat
  maxdate : Nat
  date_strict : Bool
  deriving DecidableEq

/-- Acquisition window of a catalog record. -/
structure TimeSpan where
  start : Nat
  stop : Nat
  deriving DecidableEq

/-- Environment of the completeness check: the ASF reference catalog
(modelling `asf_select(..., return_value='sceneName')` composed with the
per-name start/stop extraction through `scene.pattern`, an external
pyroSAR regex, as done on lines 594-596 and 630-632), the primary
archive's `select`, and pyroSAR's per-location `identify`
(`identify_many` is its element-wise application; the check uses only the
length and the start/stop extremes of the result, which are order
independent). -/
structure CheckEnv where
  asfRef : RefQuery → List TimeSpan
  archiveSelect : ArchQuery → List String
  identify : String → TimeSpan

/-- Errors of the completeness check: `ValueError` from `min()`/`max()`
on an empty sequence, and the aggregated `RuntimeError` of line 645. -/
inductive CheckErr where
  | valueError
  | runtimeError (msg : String)
  deriving DecidableEq

/-- Python `min` over a list of comparable values; `none` models the
`ValueError` on an empty sequence. -/
def pyMin : List Nat → Option Nat
  | [] => none
  | x :: xs => some (xs.foldl Nat.min x)

/-- Python `max` over a list of comparable values; `none` models the
`ValueError` on an empty sequence. -/
def pyMax : List Nat → Option Nat
  | [] => none
  | x :: xs => some (xs.foldl Nat.max x)

/-- Total form of `pyMin` used in theorem statements (0 on empty). -/
def pyMinD (l : List Nat) : Nat := (pyMin l).getD 0

/-- Total form of `pyMax` used in theorem statements (0 on empty). -/
def pyMaxD (l : List Nat) : Nat := (pyMax l).getD 0

/-- The reference-catalog query the check issues for a scene (buffered by
two seconds, lines 584 and 588-593). -/
def refQueryOf (scene : SceneID) : RefQuery :=
  let bw := buffer_time scene.start scene.stop 2
  ⟨scene.sensor, scene.product, scene.acquisition_mode, bw.1, bw.2⟩

/-- The primary-archive query the check issues for a scene (lines
612-617; non-strict dates). -/
def archQueryOf (scene : SceneID) : ArchQuery :=
  let bw := buffer_time scene.start scene.stop 2
  ⟨scene.sensor, scene.product, scene.acquisition_mode, bw.1, bw.2, false⟩

/-- Lines 578-609: the expected group size starts at 3 and is decremented
once per absent neighbor; in the NRT branch (`slice == 0 or
n_slices == 0`) absence is read off the reference group's extremes, and
otherwise off the slice position.  Returns the group size, the
has-predecessor and has-successor flags, and the fetched reference group
if any. -/
def boundary_flags (env : CheckEnv) (scene : SceneID) :
    Except CheckErr (Nat × Bool × Bool × Option (List TimeSpan)) :=
  if scene.sliceNumber == 0 || scene.totalSlices == 0 then
    let ref := env.asfRef (refQueryOf scene)
    match pyMin (ref.map TimeSpan.start), pyMax (ref.map TimeSpan.stop) with
    | some refStartMin, some refStopMax =>
      let a := if refStartMin == scene.start then ((2 : Nat), false) else (3, true)
      let b := if refStopMax == scene.stop then (a.1 - 1, false) else (a.1, true)
      .ok (b.1, a.2, b.2, some ref)
    | _, _ => .error .valueError
  else
    let a := if scene.sliceNumber == 1 then ((2 : Nat), false) else (3, true)
    let b := if scene.sliceNumber == scene.totalSlices then (a.1 - 1, false) else (a.1, true)
    .ok (b.1, a.2, b.2, none)

/-- Result of checking one scene: its report line, if any, and the number
of reference-catalog queries issued for it. -/
structure SceneCheckResult where
  message : Option String
  asfCalls : Nat
  deriving DecidableEq

/-- Body of the per-scene loop of `check_acquisition_completeness`
(lines 577-642): boundary flags, the primary-archive group over the
buffered window, and, when the group falls short of the expected size,
the comparison of the group extremes against the reference extremes
through the buffered window bounds (lines 636-639), reusing an
already-fetched reference group (lines 623-629). -/
def scene_check (env : CheckEnv) (scene : SceneID) : Except CheckErr SceneCheckResult :=
  let bw := buffer_time scene.start scene.stop 2
  match boundary_flags env scene with
  | .error e => .error e
  | .ok (groupsize, hasPred, hasSucc, refFetched) =>
    let group := (env.archiveSelect (archQueryOf scene)).map env.identify
    let baseCalls := if refFetched.isSome then 1 else 0
    if group.length < groupsize then
      let refCalls :=
        match refFetched with
        | some r => (r, 0)
        | none => (env.asfRef (refQueryOf scene), 1)
      let ref := refCalls.1
      match pyMin (ref.map TimeSpan.start), pyMax (ref.map TimeSpan.stop),
            pyMin (group.map TimeSpan.start), pyMax (group.map TimeSpan.stop) with
      | some refStartMin, some refStopMax, some startMin, some stopMax =>
        let missing :=
          (if refStartMin < bw.1 ∧ bw.1 < startMin ∧ hasPred then ["predecessor"] else []) ++
          (if stopMax < bw.2 ∧ bw.2 < refStopMax ∧ hasSucc then ["successor"] else [])
        if missing.length > 0 then
          .ok ⟨some (String.intercalate " and " missing ++ " acquisition for scene " ++
                     basename scene.scene), baseCalls + refCalls.2⟩
        else .ok ⟨none, baseCalls + refCalls.2⟩
      | _, _, _, _ => .error .valueError
    else .ok ⟨none, baseCalls⟩

/-- Scan of all scenes (lines 576-642), collecting report lines in scene
order and aborting at a raised low-level error. -/
def collectMessages (env : CheckEnv) : List SceneID → Except CheckErr (List String)
  | [] => .ok []
  | s :: rest =>
    match scene_check env s with
    | .error e => .error e
    | .ok r =>
      match collectMessages env rest with
      | .error e => .error e
      | .ok ms =>
        .ok (match r.message with
             | some m => m :: ms
             | none => ms)

/-- `check_acquisition_completeness` (lines 548-645): check every scene,
then raise one aggregated `RuntimeError` if any report line exists and
return nothing otherwise. -/
def check_acquisition_completeness (env : CheckEnv) (scenes : List SceneID) :
    Except CheckErr Unit :=
  match collectMessages env scenes with
  | .error e => .error e
  | .ok messages =>
    if messages.length ≠ 0 then
      .error (.runtimeError
        ("missing the following scenes:\n - " ++ String.intercalate "\n - " messages))
    else .ok ()

/-- Per-scene report line as a total function (meaningful for
environments on which no low-level error occurs). -/
def sceneMsg (env : CheckEnv) (scene : SceneID) : Option String :=
  match scene_check env scene with
  | .ok r => r.message
  | .error _ => none

/-- `collect_neighbors` (lines 523-545): select the scene's two-second
buffered window non-strictly and delete the scene's own entry
(`del neighbors[neighbors.index(scene.scene)]`, which removes the first
occurrence); `list.index` raises `ValueError` when the entry is
absent. -/
def collect_neighbors (sel : ArchQuery → List String) (scene : SceneID) :
    Except CheckErr (List String) :=
  let neighbors := sel (archQueryOf scene)
  if scene.scene ∈ neighbors then .ok (neighbors.erase scene.scene)
  else .error .valueError

/-- Concrete scene for examples: slice 2 of 3, window [100, 200]. -/
def sceneC5 : SceneID := ⟨"/p/S1X.SAFE", "S1A", "GRD", "IW", 100, 200, 2, 3⟩

/-- Concrete environment for examples: the reference group's earliest
start (99) precedes the primary group's earliest start (100) but does not
precede the buffered window start (98). -/
def envC5 : CheckEnv :=
  ⟨fun _ => [⟨99, 200⟩],
   fun _ => ["/p/a", "/p/b"],
   fun p => if p = "/p/a" then ⟨100, 200⟩ else ⟨150, 200⟩⟩

/-- Concrete environment whose reference window strictly contains the
buffered window while the primary group has only one member: both
neighbors are reported missing. -/
def envFlag : CheckEnv :=
  ⟨fun _ => [⟨10, 400⟩], fun _ => ["/p/a"], fun _ => ⟨100, 200⟩⟩

/-- Concrete environment returning a complete primary group: no scene is
flagged. -/
def envOkA : CheckEnv :=
  ⟨fun _ => [⟨1, 1000⟩], fun _ => ["/p/a", "/p/b", "/p/c"], fun _ => ⟨100, 200⟩⟩

/-! ## Tile-driven selection: `scene_select` (lines 426-520) -/

/-- Query forwarded by `scene_select` to the archive: the two date bounds
it may overwrite (seconds), plus the remaining keyword arguments, opaque
to this function, of type `Aux`. -/
structure SelQuery (Aux : Type) where
  mindate : Option Nat := none
  maxdate : Option Nat := none
  rest : Aux

/-- An MGRS tile as returned by `tile_from_aoi(..., return_geometries=True)`:
its identifier and its geometry. -/
structure TileVec (Geom : Type) where
  mgrs : String
  geom : Geom

/-- A parsed scene record as returned by pyroSAR's identify: acquisition
window and footprint geometry. -/
structure SceneRec (Geom : Type) where
  start : Nat
  stop : Nat
  geom : Geom

/-- Environment of `scene_select`: the tile-geometry service
(`aoi_from_tile`, per tile), the vector loader, the two forms of
`tile_from_aoi`, the archive's `select` restricted to an optional
geometry plus query, and pyroSAR's per-location identify. -/
structure SelEnv (Geom Aux : Type) where
  tileGeom : String → Geom
  vectorOf : String → Geom
  tileFromAoiIds : Geom → List String
  tileFromAoiGeoms : List Geom → List (TileVec Geom)
  selectA : Option Geom → SelQuery Aux → List String
  identify : String → SceneRec Geom

/-- Scene records sorted ascending by start time.  Modelled from the
spec: `identify_many` comes from pyroSAR (external; spec section 6:
"identify(paths) -> parsed scene records, sorted by key"), and
`scene_select` calls it with sort key `start`. -/
def sortByStart {Geom : Type} (l : List (SceneRec Geom)) : List (SceneRec Geom) :=
  l.insertionSort (fun a b => a.start ≤ b.start)

/-- Python `sorted(list(set(l)))` on strings: the distinct elements in
ascending code-point order. -/
def pyDedup : List String → List String
  | [] => []
  | x :: xs => if x ∈ xs then pyDedup xs else x :: pyDedup xs

/-- Final normalisation of `scene_select` (line 520). -/
def pySortedSet (l : List String) : List String := pySorted (pyDedup l)

/-- Error of `scene_select`: `selection_tmp[0]` raises `IndexError` when
the phase-1 selection is empty (line 494). -/
inductive SelErr where
  | indexError
  deriving DecidableEq

/-- `scene_select` (lines 426-520) for an archive whose `select` returns
location strings (the `STACArchive` case, in which line 494's isinstance
test routes the phase-1 result through `identify_many`): explicit tiles
are mapped to geometries and searched one by one; an explicit AOI is
searched once with its derived tile list; with neither, a phase-1 search
without spatial constraint derives the tile set from the scene
footprints, the date window is widened to
[min(start) - 1 minute, max(stop) + 1 minute], and the widened query is
re-run once per derived tile; the accumulated selection is de-duplicated
and sorted. -/
def scene_select {Geom Aux : Type} (env : SelEnv Geom Aux)
    (aoi_tiles : Option (List String)) (aoi_geometry : Option String)
    (q : SelQuery Aux) : Except SelErr (List String × List String) :=
  match aoi_tiles with
  | some ts =>
    let vec := ts.map env.tileGeom
    let selection := vec.foldl (fun acc g => acc ++ env.selectA (some g) q) []
    .ok (pySortedSet selection, ts)
  | none =>
    match aoi_geometry with
    | some gfile =>
      let v := env.vectorOf gfile
      let ts := env.tileFromAoiIds v
      let selection := [v].foldl (fun acc g => acc ++ env.selectA (some g) q) []
      .ok (pySortedSet selection, ts)
    | none =>
      let phase1 := env.selectA none q
      if phase1.isEmpty then .error .indexError
      else
        let scenes := sortByStart (phase1.map env.identify)
        let vec := env.tileFromAoiGeoms (scenes.map SceneRec.geom)
        let ts := vec.map TileVec.mgrs
        let mind := pyMinD (scenes.map SceneRec.start) - 60
        let maxd := pyMaxD (scenes.map SceneRec.stop) + 60
        let q2 : SelQuery Aux := { mindate := some mind, maxdate := some maxd, rest := q.rest }
        let selection := vec.foldl (fun acc t => acc ++ env.selectA (some t.geom) q2) []
        .ok (pySortedSet selection, ts)

/-- Concrete selection environment for examples: per-tile searches return
an unsorted two-element selection. -/
def envW7 : SelEnv Nat Unit :=
  ⟨fun _ => 0, fun _ => 0, fun _ => [], fun _ => [],
   fun _ _ => ["/b", "/a"], fun _ => ⟨0, 0, 0⟩⟩

/-- Concrete selection environment for examples: the phase-1 search (no
geometry) returns one scene, which derives one tile; the per-tile phase-2
search returns two scenes. -/
def envW8 : SelEnv Nat Unit :=
  ⟨fun _ => 0, fun _ => 0, fun _ => [], fun _ => [⟨"T1", 5⟩],
   fun og _ => if og = none then ["/p"] else ["/x", "/y"], fun _ => ⟨100, 200, 7⟩⟩

end S1NRB

namespace S1NRB

/-! ## Lemmas about the retry loop -/

theorem retryGo_all_transient (be : Nat → Outcome ε α) (e : Nat → ε)
    (h : ∀ j, be j = .transient (e j)) :
    ∀ left i, retryGo be i left = (.transient (e (i + left)), left + 1, left) := by
  intro left
  induction left with
  | zero => intro i; simp [retryGo, h i]
  | succ n ih =>
    intro i
    have h3 : i + 1 + n = i + (n + 1) := by omega
    simp only [retryGo, h i, ih (i + 1), h3]

theorem retryGo_reaches (be : Nat → Outcome ε α) (e : Nat → ε) (o : Outcome ε α)
    (hstop : ∀ x, o ≠ .transient x) :
    ∀ left i N, i ≤ N → N ≤ i + left →
      (∀ j, i ≤ j → j < N → be j = .transient (e j)) → be N = o →
      retryGo be i left = (o, N - i + 1, N - i) := by
  intro left
  induction left with
  | zero =>
    intro i N hiN hNi htr ho
    have hEq : N = i := Nat.le_antisymm (by simpa using hNi) hiN
    subst hEq
    simp [retryGo, ho]
  | succ n ih =>
    intro i N hiN hNi htr ho
    rcases Nat.eq_or_lt_of_le hiN with hEq | hlt
    · subst hEq
      rcases o with a | x | x
      · simp [retryGo, ho]
      · exact absurd rfl (hstop x)
      · simp [retryGo, ho]
    · have hbi : be i = .transient (e i) := htr i (Nat.le_refl i) hlt
      have hrec := ih (i + 1) N hlt (by omega)
        (fun j hj1 hj2 => htr j (by omega) hj2) ho
      have e2 : N - (i + 1) + 1 = N - i := by omega
      simp only [retryGo, hbi, hrec, e2]

/-- C2: for both catalog open and catalog search, (1) a backend failing
transiently on attempts 1..N-1 and succeeding at attempt N ≤ 300 yields
success after exactly N attempts and N-1 seconds of fixed 1-second delays;
(2) a backend that always fails transiently yields failure after exactly
300 attempts, re-raising the transient error of the final (300th) attempt;
(3) a non-transient error raised at attempt N (after transient failures
only) propagates immediately at that attempt, without further retry. -/
theorem retry_policy :
    (∀ (ε α : Type) (be : Nat → Outcome ε α) (e : Nat → ε) (a : α) (N : Nat),
      1 ≤ N → N ≤ 300 →
      (∀ j, 1 ≤ j → j < N → be j = .transient (e j)) → be N = .ok a →
      open_catalog be = (.ok a, N, N - 1) ∧ catalog_search be = (.ok a, N, N - 1)) ∧
    (∀ (ε α : Type) (be : Nat → Outcome ε α) (e : Nat → ε),
      (∀ j, be j = .transient (e j)) →
      open_catalog be = (.transient (e 300), 300, 299) ∧
      catalog_search be = (.transient (e 300), 300, 299)) ∧
    (∀ (ε α : Type) (be : Nat → Outcome ε α) (e : Nat → ε) (f : ε) (N : Nat),
      1 ≤ N → N ≤ 300 →
      (∀ j, 1 ≤ j → j < N → be j = .transient (e j)) → be N = .fatal f →
      open_catalog be = (.fatal f, N, N - 1) ∧ catalog_search be = (.fatal f, N, N - 1)) := by
  refine ⟨?_, ?_, ?_⟩
  · intro ε α be e a N h1 h2 htr ho
    have h := retryGo_reaches be e (.ok a) (by intro x h; cases h) 299 1 N h1 (by omega) htr ho
    constructor <;>
      · show retryGo be 1 (max_tries - 1) = _
        rw [show max_tries - 1 = 299 from rfl, h]
        refine congrArg _ ?_
        refine congrArg₂ _ (by omega) (by omega)
  · intro ε α be e h
    have hh := retryGo_all_transient be e h 299 1
    constructor <;>
      · show retryGo be 1 (max_tries - 1) = _
        rw [show max_tries - 1 = 299 from rfl, hh]
  · intro ε α be e f N h1 h2 htr ho
    have h := retryGo_reaches be e (.fatal f) (by intro x h; cases h) 299 1 N h1 (by omega) htr ho
    constructor <;>
      · show retryGo be 1 (max_tries - 1) = _
        rw [show max_tries - 1 = 299 from rfl, h]
        refine congrArg _ ?_
        refine congrArg₂ _ (by omega) (by omega)

/-! ## Lemmas about the filter construction -/

theorem filter_isDateClause_combine (p : String)
    (h1 : (p == "start_datetime") = false) (h2 : (p == "end_datetime") = false)
    (vs : List String) :
    List.filter isDateClause [combineArgs (eqArgs p vs)] = [] := by
  cases vs with
  | nil => simp [combineArgs, eqArgs, isDateClause]
  | cons v rest =>
    cases rest with
    | nil => simp [combineArgs, eqArgs, isDateClause, h1, h2]
    | cons w r => simp [combineArgs, eqArgs, isDateClause]

theorem filter_isDateClause_optClause (p : String)
    (h1 : (p == "start_datetime") = false) (h2 : (p == "end_datetime") = false)
    (o : Option (List String)) :
    List.filter isDateClause (optClause p o) = [] := by
  cases o with
  | none => rfl
  | some vs => exact filter_isDateClause_combine p h1 h2 vs

theorem filter_isDateClause_frame (o : Option (List Nat)) :
    List.filter isDateClause (frameArgs o) = [] := by
  cases o with
  | none => rfl
  | some vs =>
    cases vs with
    | nil => simp [frameArgs, combineArgs, isDateClause]
    | cons v rest =>
      cases rest with
      | nil => simp [frameArgs, combineArgs, isDateClause]
      | cons w r => simp [frameArgs, combineArgs, isDateClause]

theorem filter_isDateClause_geom (b : Bool) :
    List.filter isDateClause (geomArgs b) = [] := by
  cases b <;> simp [geomArgs, isDateClause]

theorem mapLookupPlatform_props (vs : List String) (sargs : List (String × String × String))
    (h : mapLookupPlatform vs = .ok sargs) : ∀ a ∈ sargs, a.2.1 = "platform" := by
  induction vs generalizing sargs with
  | nil =>
    simp only [mapLookupPlatform, Except.ok.injEq] at h
    subst h; intro a ha; cases ha
  | cons v rest ih =>
    simp only [mapLookupPlatform] at h
    cases hl : lookup_platform v with
    | none => rw [hl] at h; cases h
    | some p =>
      rw [hl] at h
      cases hr : mapLookupPlatform rest with
      | error e => rw [hr] at h; cases h
      | ok tailargs =>
        rw [hr] at h
        simp only [Except.ok.injEq] at h
        subst h
        intro a ha
        rcases List.mem_cons.mp ha with rfl | ha2
        · rfl
        · exact ih tailargs hr a ha2

theorem filter_isDateClause_sensor (sargs : List (String × String × String))
    (h : ∀ a ∈ sargs, a.2.1 = "platform") :
    List.filter isDateClause [combineArgs sargs] = [] := by
  cases sargs with
  | nil => simp [combineArgs, isDateClause]
  | cons a rest =>
    cases rest with
    | nil =>
      have ha := h a (by simp)
      simp [combineArgs, isDateClause, ha]
    | cons b r => simp [combineArgs, isDateClause]

theorem filter_isDateClause_dateMin (ds : Bool) (o : Option String) :
    List.filter isDateClause (dateArgsMin ds o) = dateArgsMin ds o := by
  cases o with
  | none => rfl
  | some v => cases ds <;> simp [dateArgsMin, isDateClause]

theorem filter_isDateClause_dateMax (ds : Bool) (o : Option String) :
    List.filter isDateClause (dateArgsMax ds o) = dateArgsMax ds o := by
  cases o with
  | none => rfl
  | some v => cases ds <;> simp [dateArgsMax, isDateClause]

theorem dateArgsMin_shape (ds : Bool) (o : Option String) :
    dateArgsMin ds o =
      (match o with
       | none => []
       | some v => [FilterArg.cmp ">=" (if ds then "start_datetime" else "end_datetime") v]) := by
  cases o <;> cases ds <;> rfl

theorem dateArgsMax_shape (ds : Bool) (o : Option String) :
    dateArgsMax ds o =
      (match o with
       | none => []
       | some v => [FilterArg.cmp "<=" (if ds then "end_datetime" else "start_datetime") v]) := by
  cases o <;> cases ds <;> rfl

/-- C3: in the generated filter, the comparison clauses on the scene date
fields are exactly these: under strict semantics `mindate` bounds
`start_datetime` from below and `maxdate` bounds `end_datetime` from
above; under non-strict semantics the bindings swap.  In `asf_select`,
the strict post-filter keeps exactly the features with
`start <= startTime` and `stopTime <= stop`, and the non-strict variant
applies no date post-filter. -/
theorem date_filter_bindings :
    (∀ (q : StacQuery) (ds : Bool) (args : List FilterArg),
      buildFilter q ds = .ok args →
      args.filter isDateClause =
        (match q.mindate with
         | none => []
         | some v => [FilterArg.cmp ">=" (if ds then "start_datetime" else "end_datetime") v]) ++
        (match q.maxdate with
         | none => []
         | some v => [FilterArg.cmp "<=" (if ds then "end_datetime" else "start_datetime") v])) ∧
    (∀ (start stop : Nat) (features : List AsfFeature) (x : AsfFeature),
      (x ∈ asf_date_filter true start stop features ↔
        x ∈ features ∧ start ≤ x.startTime ∧ x.stopTime ≤ stop) ∧
      asf_date_filter false start stop features = features) := by
  constructor
  · intro q ds args h
    have htail :
        List.filter isDateClause
          (optClause "sar:product_type" q.product ++
           optClause "sar:instrument_mode" q.acquisition_mode ++
           dateArgsMin ds q.mindate ++
           dateArgsMax ds q.maxdate ++
           frameArgs q.frameNumber ++
           geomArgs q.vectorobject) =
          dateArgsMin ds q.mindate ++ dateArgsMax ds q.maxdate := by
      simp only [List.filter_append,
        filter_isDateClause_optClause "sar:product_type" (by decide) (by decide),
        filter_isDateClause_optClause "sar:instrument_mode" (by decide) (by decide),
        filter_isDateClause_dateMin, filter_isDateClause_dateMax,
        filter_isDateClause_frame, filter_isDateClause_geom,
        List.nil_append, List.append_nil]
    cases hs : q.sensor with
    | none =>
      rw [buildFilter, hs] at h
      simp only [Except.ok.injEq] at h
      subst h
      rw [htail, dateArgsMin_shape, dateArgsMax_shape]
    | some vs =>
      rw [buildFilter, hs] at h
      cases hm : mapLookupPlatform vs with
      | error e => simp [hm] at h
      | ok sargs =>
        simp only [hm, Except.ok.injEq] at h
        subst h
        rw [List.filter_append,
          filter_isDateClause_sensor sargs (mapLookupPlatform_props vs sargs hm),
          htail, List.nil_append, dateArgsMin_shape, dateArgsMax_shape]
  · intro start stop features x
    constructor
    · simp [asf_date_filter, List.mem_filter, and_assoc]
    · rfl

/-- Witness for `date_filter_bindings`: a concrete query with sensor S1A
and both dates set, under strict semantics, and a concrete feature list
for the ASF post-filter. -/
theorem date_filter_bindings_witness :
    buildFilter { sensor := some ["S1A"], mindate := some "20210101T000000",
                  maxdate := some "20210102T000000" } true =
      .ok [FilterArg.cmp "=" "platform" "sentinel-1a",
           .cmp ">=" "start_datetime" "20210101T000000",
           .cmp "<=" "end_datetime" "20210102T000000"] ∧
    List.filter isDateClause
        [FilterArg.cmp "=" "platform" "sentinel-1a",
         .cmp ">=" "start_datetime" "20210101T000000",
         .cmp "<=" "end_datetime" "20210102T000000"] =
      [FilterArg.cmp ">=" "start_datetime" "20210101T000000",
       .cmp "<=" "end_datetime" "20210102T000000"] ∧
    ((⟨"x", 5, 6⟩ : AsfFeature) ∈ asf_date_filter true 4 7 [⟨"x", 5, 6⟩] ↔
      (⟨"x", 5, 6⟩ : AsfFeature) ∈ [(⟨"x", 5, 6⟩ : AsfFeature)] ∧ 4 ≤ 5 ∧ 6 ≤ 7) := by
  refine ⟨by decide, ?_, ?_⟩
  · have h := date_filter_bindings.1
      { sensor := some ["S1A"], mindate := some "20210101T000000",
        maxdate := some "20210102T000000" }
      true
      [FilterArg.cmp "=" "platform" "sentinel-1a",
       .cmp ">=" "start_datetime" "20210101T000000",
       .cmp "<=" "end_datetime" "20210102T000000"]
      (by decide)
    simpa using h
  · exact (date_filter_bindings.2 4 7 [⟨"x", 5, 6⟩] ⟨"x", 5, 6⟩).1

/-! ## Neighbor collection (C10) -/

/-- Counterexample to C10 as stated: an archive whose selection contains
the scene's own location twice.  `collect_neighbors` removes only the
first occurrence, so the queried scene IS among the returned neighbors,
refuting "the queried scene itself is never among the returned
neighbors". -/
theorem collect_neighbors_counterexample :
    (⟨"/d/s.SAFE", "S1A", "GRD", "IW", 100, 200, 2, 3⟩ : SceneID).scene ∈
      (fun (_ : ArchQuery) => ["/d/s.SAFE", "/d/s.SAFE"])
        (archQueryOf ⟨"/d/s.SAFE", "S1A", "GRD", "IW", 100, 200, 2, 3⟩) ∧
    collect_neighbors (fun _ => ["/d/s.SAFE", "/d/s.SAFE"])
      ⟨"/d/s.SAFE", "S1A", "GRD", "IW", 100, 200, 2, 3⟩ = .ok ["/d/s.SAFE"] ∧
    (⟨"/d/s.SAFE", "S1A", "GRD", "IW", 100, 200, 2, 3⟩ : SceneID).scene ∈
      ["/d/s.SAFE"] := by
  refine ⟨by decide, by decide, by decide⟩

/-- C10 (amended): when the scene's own location occurs in the archive
selection over its buffered window, `collect_neighbors` returns the
selection with the FIRST occurrence of that location removed — so the
scene itself is absent from the result whenever it occurred exactly once
— and when the location is absent from the selection the call raises
`ValueError` instead of returning a list. -/
theorem collect_neighbors_spec :
    (∀ (sel : ArchQuery → List String) (scene : SceneID),
      scene.scene ∈ sel (archQueryOf scene) →
      collect_neighbors sel scene = .ok ((sel (archQueryOf scene)).erase scene.scene) ∧
      ((sel (archQueryOf scene)).count scene.scene = 1 →
        scene.scene ∉ (sel (archQueryOf scene)).erase scene.scene)) ∧
    (∀ (sel : ArchQuery → List String) (scene : SceneID),
      scene.scene ∉ sel (archQueryOf scene) →
      collect_neighbors sel scene = .error .valueError) := by
  constructor
  · intro sel scene hmem
    constructor
    · simp only [collect_neighbors, if_pos hmem]
    · intro hcount hmem2
      have h1 := List.count_erase_self scene.scene (sel (archQueryOf scene))
      rw [hcount] at h1
      have h2 := List.count_pos_iff.mpr hmem2
      omega
  · intro sel scene hmem
    simp only [collect_neighbors, if_neg hmem]

/-- Witness for `collect_neighbors_spec`: a selection containing the scene
once (first occurrence removed, scene absent from result) and a selection
not containing it (ValueError). -/
theorem collect_neighbors_spec_witness :
    ("/d/s.SAFE" ∈ ["/d/a.SAFE", "/d/s.SAFE", "/d/b.SAFE"]) ∧
    collect_neighbors (fun _ => ["/d/a.SAFE", "/d/s.SAFE", "/d/b.SAFE"])
        ⟨"/d/s.SAFE", "S1A", "GRD", "IW", 100, 200, 2, 3⟩ =
      .ok (["/d/a.SAFE", "/d/s.SAFE", "/d/b.SAFE"].erase "/d/s.SAFE") ∧
    collect_neighbors (fun _ => ["/d/a.SAFE"])
        ⟨"/d/s.SAFE", "S1A", "GRD", "IW", 100, 200, 2, 3⟩ = .error .valueError := by
  refine ⟨by decide, ?_, ?_⟩
  · exact (collect_neighbors_spec.1 (fun _ => ["/d/a.SAFE", "/d/s.SAFE", "/d/b.SAFE"])
      ⟨"/d/s.SAFE", "S1A", "GRD", "IW", 100, 200, 2, 3⟩ (by decide)).1
  · exact collect_neighbors_spec.2 (fun _ => ["/d/a.SAFE"])
      ⟨"/d/s.SAFE", "S1A", "GRD", "IW", 100, 200, 2, 3⟩ (by decide)

/-! ## Existence checking in `STACArchive.select` (C9) -/

theorem resolve_path_of_resolved (fs : LocalFS) (item : StacItem) (p : String)
    (h : resolvedPath item = some p) :
    resolve_path fs true item =
      (if fs.pathExists p then .ok (fs.realpath p) else .error (.notFound p)) := by
  rcases item with ⟨hrefs⟩
  cases hrefs with
  | nil => simp [resolvedPath] at h
  | cons href rest =>
    simp only [resolvedPath] at h
    cases ht : truncateSAFE href with
    | none => rw [ht] at h; cases h
    | some tp =>
      rw [ht] at h
      simp only [Option.some.injEq] at h
      subst h
      simp [resolve_path, ht]

theorem resolveAll_missing (fs : LocalFS) :
    ∀ (items : List StacItem) (it : StacItem) (p : String),
      it ∈ items → (∀ j ∈ items, (resolvedPath j).isSome) →
      resolvedPath it = some p → fs.pathExists p = false →
      ∃ p2, resolveAll fs true items = .error (.notFound p2) ∧ fs.pathExists p2 = false := by
  intro items
  induction items with
  | nil => intro it p hmem; cases hmem
  | cons j rest ih =>
    intro it p hmem hall hres hmiss
    have hj : (resolvedPath j).isSome := hall j (by simp)
    rcases Option.isSome_iff_exists.mp hj with ⟨pj, hpj⟩
    have hrp := resolve_path_of_resolved fs j pj hpj
    cases hex : fs.pathExists pj with
    | false =>
      refine ⟨pj, ?_, hex⟩
      rw [hex] at hrp
      simp only [Bool.false_eq_true, if_false] at hrp
      simp [resolveAll, hrp]
    | true =>
      rw [hex] at hrp
      simp only [if_pos] at hrp
      have hit : it ∈ rest := by
        rcases List.mem_cons.mp hmem with rfl | h2
        · rw [hpj] at hres
          simp only [Option.some.injEq] at hres
          subst hres
          rw [hex] at hmiss
          cases hmiss
        · exact h2
      rcases ih it p hit (fun a ha => hall a (by simp [ha])) hres hmiss with ⟨p2, hr, he⟩
      refine ⟨p2, ?_, he⟩
      simp [resolveAll, hrp, hr]

/-- C9: per-item resolution takes the first asset reference, truncates it
after `.SAFE`, strips a leading `file://` scheme, resolves existing paths
with realpath, and raises the not-found error on a missing path when
existence checking is requested; consequently, when every selected record
resolves and some record's path is absent locally,
`STACArchive.select`'s post-processing fails with a not-found error for
an absent path instead of returning a result. -/
theorem select_existence_check :
    (∀ (fs : LocalFS) (ce : Bool) (item : StacItem) (href : String)
       (rest : List String) (tp : String),
      item.assetHrefs = href :: rest → truncateSAFE href = some tp →
      resolve_path fs ce item =
        (if fs.pathExists (stripFileScheme tp) then .ok (fs.realpath (stripFileScheme tp))
         else if ce then .error (.notFound (stripFileScheme tp))
         else .ok (stripFileScheme tp))) ∧
    (∀ (fs : LocalFS) (f : String → Nat) (items : List StacItem) (it : StacItem) (p : String),
      it ∈ items → (∀ j ∈ items, (resolvedPath j).isSome) →
      resolvedPath it = some p → fs.pathExists p = false →
      ∃ p2, stac_select_post fs true f items = .error (.notFound p2) ∧
        fs.pathExists p2 = false) := by
  constructor
  · intro fs ce item href rest tp hh ht
    rcases item with ⟨hrefs⟩
    simp only at hh
    subst hh
    simp only [resolve_path, ht]
  · intro fs f items it p hmem hall hres hmiss
    rcases resolveAll_missing fs items it p hmem hall hres hmiss with ⟨p2, hr, he⟩
    refine ⟨p2, ?_, he⟩
    simp only [stac_select_post, hr]

/-- Witness for `select_existence_check`: two items, the second of which
resolves to a path absent from the local file system. -/
theorem select_existence_check_witness :
    ((⟨["file:///data/a.SAFE/m.safe"]⟩ : StacItem).assetHrefs =
      "file:///data/a.SAFE/m.safe" :: []) ∧
    truncateSAFE "file:///data/a.SAFE/m.safe" = some "file:///data/a.SAFE" ∧
    resolve_path ⟨fun p => p == "/data/a.SAFE", fun p => p⟩ true ⟨["file:///data/a.SAFE/m.safe"]⟩ =
      (if (fun p => p == "/data/a.SAFE") (stripFileScheme "file:///data/a.SAFE") then
        .ok ((fun (p : String) => p) (stripFileScheme "file:///data/a.SAFE"))
       else if true then .error (.notFound (stripFileScheme "file:///data/a.SAFE"))
       else .ok (stripFileScheme "file:///data/a.SAFE")) ∧
    (∃ p2, stac_select_post ⟨fun p => p == "/data/a.SAFE", fun p => p⟩ true (fun _ => 0)
        [⟨["file:///data/a.SAFE/m.safe"]⟩, ⟨["/data/b.SAFE/x"]⟩] = .error (.notFound p2) ∧
      (fun (p : String) => p == "/data/a.SAFE") p2 = false) := by
  refine ⟨by decide, by decide, ?_, ?_⟩
  · exact select_existence_check.1 ⟨fun p => p == "/data/a.SAFE", fun p => p⟩ true
      ⟨["file:///data/a.SAFE/m.safe"]⟩ "file:///data/a.SAFE/m.safe" [] "file:///data/a.SAFE"
      (by decide) (by decide)
  · exact select_existence_check.2 ⟨fun p => p == "/data/a.SAFE", fun p => p⟩ (fun _ => 0)
      [⟨["file:///data/a.SAFE/m.safe"]⟩, ⟨["/data/b.SAFE/x"]⟩] ⟨["/data/b.SAFE/x"]⟩
      "/data/b.SAFE" (by decide) (by decide) (by decide) (by decide)

/-! ## Boundary flags of the completeness check (C4) -/

theorem pyMin_of_ne_nil (l : List Nat) (h : l ≠ []) : pyMin l = some (pyMinD l) := by
  cases l with
  | nil => exact absurd rfl h
  | cons x xs => rfl

theorem pyMax_of_ne_nil (l : List Nat) (h : l ≠ []) : pyMax l = some (pyMaxD l) := by
  cases l with
  | nil => exact absurd rfl h
  | cons x xs => rfl

/-- C4: the expected group size starts at 3 and is decremented once per
absent neighbor; for an unsliced scene (slice = 0 and totalSlices = 0,
equivalent under the data-model invariant to the code's
`slice == 0 or n_slices == 0`) the reference catalog is queried over the
buffered window and the scene lacks a predecessor exactly when its start
equals the reference minimum start (successor symmetric via maximum
stop); otherwise it lacks a predecessor exactly when slice = 1 and a
successor exactly when slice = totalSlices. -/
theorem boundary_flags_spec (env : CheckEnv) (scene : SceneID)
    (hInv : scene.sliceNumber = 0 ↔ scene.totalSlices = 0)
    (hRef : scene.totalSlices = 0 → env.asfRef (refQueryOf scene) ≠ []) :
    boundary_flags env scene =
      (let ref := env.asfRef (refQueryOf scene)
       let hasPred :=
         if scene.totalSlices = 0 then !(pyMinD (ref.map TimeSpan.start) == scene.start)
         else !(scene.sliceNumber == 1)
       let hasSucc :=
         if scene.totalSlices = 0 then !(pyMaxD (ref.map TimeSpan.stop) == scene.stop)
         else !(scene.sliceNumber == scene.totalSlices)
       Except.ok (3 - (if hasPred then 0 else 1) - (if hasSucc then 0 else 1),
                  hasPred, hasSucc,
                  if scene.totalSlices = 0 then some ref else none)) := by
  by_cases htot : scene.totalSlices = 0
  · have hne : env.asfRef (refQueryOf scene) ≠ [] := hRef htot
    have h1 : (env.asfRef (refQueryOf scene)).map TimeSpan.start ≠ [] := by
      simpa using hne
    have h2 : (env.asfRef (refQueryOf scene)).map TimeSpan.stop ≠ [] := by
      simpa using hne
    have hcond : (scene.sliceNumber == 0 || scene.totalSlices == 0) = true := by
      simp [htot]
    simp only [boundary_flags, hcond, if_true,
      pyMin_of_ne_nil _ h1, pyMax_of_ne_nil _ h2]
    cases hps : (pyMinD ((env.asfRef (refQueryOf scene)).map TimeSpan.start) == scene.start) <;>
      cases hss : (pyMaxD ((env.asfRef (refQueryOf scene)).map TimeSpan.stop) == scene.stop) <;>
        simp [hps, hss, htot]
  · have hsl : ¬ scene.sliceNumber = 0 := fun h => htot (hInv.mp h)
    have hcond : (scene.sliceNumber == 0 || scene.totalSlices == 0) = false := by
      simp [htot, hsl]
    simp only [boundary_flags, hcond, Bool.false_eq_true, if_false]
    cases hp1 : (scene.sliceNumber == 1) <;>
      cases hp2 : (scene.sliceNumber == scene.totalSlices) <;>
        simp [hp1, hp2, htot]

/-- Witness for `boundary_flags_spec`: an unsliced scene whose reference
group strictly contains its window, so both neighbors are expected and
the group size stays 3. -/
theorem boundary_flags_spec_witness :
    (((⟨"/d/x", "S1A", "GRD", "IW", 100, 200, 0, 0⟩ : SceneID).sliceNumber = 0 ↔
      (⟨"/d/x", "S1A", "GRD", "IW", 100, 200, 0, 0⟩ : SceneID).totalSlices = 0)) ∧
    boundary_flags
        ⟨fun _ => [⟨50, 300⟩], fun _ => [], fun _ => ⟨0, 0⟩⟩
        ⟨"/d/x", "S1A", "GRD", "IW", 100, 200, 0, 0⟩ =
      .ok (3, true, true, some [⟨50, 300⟩]) := by
  constructor
  · exact ⟨fun _ => rfl, fun _ => rfl⟩
  · have h := boundary_flags_spec
      ⟨fun _ => [⟨50, 300⟩], fun _ => [], fun _ => ⟨0, 0⟩⟩
      ⟨"/d/x", "S1A", "GRD", "IW", 100, 200, 0, 0⟩
      ⟨fun _ => rfl, fun _ => rfl⟩ (fun _ => by simp)
    exact h.trans (by decide)

/-! ## Per-scene flagging of the completeness check (C5, C6) -/

theorem boundary_flags_ref (env : CheckEnv) (scene : SceneID)
    (gs : Nat) (hp hs : Bool) (rf : Option (List TimeSpan))
    (hb : boundary_flags env scene = .ok (gs, hp, hs, rf)) :
    rf = none ∨ rf = some (env.asfRef (refQueryOf scene)) := by
  by_cases hcond : (scene.sliceNumber == 0 || scene.totalSlices == 0) = true
  · simp only [boundary_flags, hcond, if_true] at hb
    cases hmn : pyMin ((env.asfRef (refQueryOf scene)).map TimeSpan.start) with
    | none => rw [hmn] at hb; simp at hb
    | some a =>
      cases hmx : pyMax ((env.asfRef (refQueryOf scene)).map TimeSpan.stop) with
      | none => rw [hmn, hmx] at hb; simp at hb
      | some b =>
        rw [hmn, hmx] at hb
        simp only [Except.ok.injEq, Prod.mk.injEq] at hb
        exact Or.inr hb.2.2.2.symm
  · simp only [Bool.not_eq_true] at hcond
    simp only [boundary_flags, hcond, Bool.false_eq_true, if_false] at hb
    simp only [Except.ok.injEq, Prod.mk.injEq] at hb
    exact Or.inl hb.2.2.2.symm

theorem scene_check_eq (env : CheckEnv) (scene : SceneID)
    (gs : Nat) (hp hs : Bool) (rf : Option (List TimeSpan))
    (hb : boundary_flags env scene = .ok (gs, hp, hs, rf))
    (hA : ∀ q, env.asfRef q ≠ []) (hB : ∀ q, env.archiveSelect q ≠ []) :
    scene_check env scene = .ok
      ⟨(if ((env.archiveSelect (archQueryOf scene)).map env.identify).length < gs then
          (let bw := buffer_time scene.start scene.stop 2
           let group := (env.archiveSelect (archQueryOf scene)).map env.identify
           let ref := env.asfRef (refQueryOf scene)
           let missing :=
             (if pyMinD (ref.map TimeSpan.start) < bw.1 ∧
                 bw.1 < pyMinD (group.map TimeSpan.start) ∧ hp = true
              then ["predecessor"] else []) ++
             (if pyMaxD (group.map TimeSpan.stop) < bw.2 ∧
                 bw.2 < pyMaxD (ref.map TimeSpan.stop) ∧ hs = true
              then ["successor"] else [])
           if missing = [] then none
           else some (String.intercalate " and " missing ++ " acquisition for scene " ++
                      basename scene.scene))
        else none),
       (if rf.isSome then 1 else 0) +
         (if ((env.archiveSelect (archQueryOf scene)).map env.identify).length < gs ∧ rf = none
          then 1 else 0)⟩ := by
  have hgs : ((env.archiveSelect (archQueryOf scene)).map env.identify).map TimeSpan.start ≠ [] := by
    simpa using hB (archQueryOf scene)
  have hgx : ((env.archiveSelect (archQueryOf scene)).map env.identify).map TimeSpan.stop ≠ [] := by
    simpa using hB (archQueryOf scene)
  have hrs : (env.asfRef (refQueryOf scene)).map TimeSpan.start ≠ [] := by
    simpa using hA (refQueryOf scene)
  have hrx : (env.asfRef (refQueryOf scene)).map TimeSpan.stop ≠ [] := by
    simpa using hA (refQueryOf scene)
  rcases boundary_flags_ref env scene gs hp hs rf hb with hrf | hrf <;> subst hrf <;>
    by_cases hlen : ((env.archiveSelect (archQueryOf scene)).map env.identify).length < gs <;>
      simp only [scene_check, hb, hlen, if_true, if_false,
        pyMin_of_ne_nil _ hgs, pyMax_of_ne_nil _ hgx,
        pyMin_of_ne_nil _ hrs, pyMax_of_ne_nil _ hrx,
        Option.isSome_none, Option.isSome_some, and_true, and_false, Bool.false_eq_true,
        if_pos, if_neg, not_false_eq_true] <;>
      · first
        | rfl
        | (cases hm : ((if pyMinD ((env.asfRef (refQueryOf scene)).map TimeSpan.start) <
                (buffer_time scene.start scene.stop 2).1 ∧
                (buffer_time scene.start scene.stop 2).1 <
                pyMinD ((((env.archiveSelect (archQueryOf scene)).map env.identify)).map TimeSpan.start) ∧
                hp = true
             then ["predecessor"] else []) ++
            (if pyMaxD ((((env.archiveSelect (archQueryOf scene)).map env.identify)).map TimeSpan.stop) <
                (buffer_time scene.start scene.stop 2).2 ∧
                (buffer_time scene.start scene.stop 2).2 <
                pyMaxD ((env.asfRef (refQueryOf scene)).map TimeSpan.stop) ∧
                hs = true
             then ["successor"] else [])) with
           | nil => simp [hm]
           | cons a l => simp [hm])

/-- Counterexample to C5 as stated: the reference group's earliest start
(99) precedes the primary group's earliest start (100), a predecessor is
expected, and the primary group (size 2) is smaller than the expected
size (3); yet no 'predecessor' is flagged, because the code additionally
requires the reference minimum to precede the BUFFERED window start (98),
which fails here. -/
theorem scene_check_counterexample :
    boundary_flags envC5 sceneC5 = .ok (3, true, true, none) ∧
    ((envC5.archiveSelect (archQueryOf sceneC5)).map envC5.identify).length < 3 ∧
    pyMinD ((envC5.asfRef (refQueryOf sceneC5)).map TimeSpan.start) <
      pyMinD (((envC5.archiveSelect (archQueryOf sceneC5)).map envC5.identify).map
        TimeSpan.start) ∧
    scene_check envC5 sceneC5 = .ok ⟨none, 1⟩ := by
  exact ⟨by decide, by decide, by decide, by decide⟩

/-- C5 (amended): for a scene whose primary group is smaller than the
expected size, 'predecessor' is flagged exactly when a predecessor was
expected and the reference group's earliest start precedes the buffered
window start, which in turn precedes the primary group's earliest start
(`ref_start_min < start - 2s < primary_start_min`); symmetrically,
'successor' is flagged exactly when a successor was expected and
`primary_stop_max < stop + 2s < ref_stop_max`; an already-fetched
reference group is reused, so at most one reference query is issued per
scene. -/
theorem scene_check_flags (env : CheckEnv) (scene : SceneID)
    (gs : Nat) (hp hs : Bool) (rf : Option (List TimeSpan))
    (hb : boundary_flags env scene = .ok (gs, hp, hs, rf))
    (hA : ∀ q, env.asfRef q ≠ []) (hB : ∀ q, env.archiveSelect q ≠ []) :
    scene_check env scene = .ok
      ⟨(if ((env.archiveSelect (archQueryOf scene)).map env.identify).length < gs then
          (let bw := buffer_time scene.start scene.stop 2
           let group := (env.archiveSelect (archQueryOf scene)).map env.identify
           let ref := env.asfRef (refQueryOf scene)
           let missing :=
             (if pyMinD (ref.map TimeSpan.start) < bw.1 ∧
                 bw.1 < pyMinD (group.map TimeSpan.start) ∧ hp = true
              then ["predecessor"] else []) ++
             (if pyMaxD (group.map TimeSpan.stop) < bw.2 ∧
                 bw.2 < pyMaxD (ref.map TimeSpan.stop) ∧ hs = true
              then ["successor"] else [])
           if missing = [] then none
           else some (String.intercalate " and " missing ++ " acquisition for scene " ++
                      basename scene.scene))
        else none),
       (if rf.isSome then 1 else 0) +
         (if ((env.archiveSelect (archQueryOf scene)).map env.identify).length < gs ∧ rf = none
          then 1 else 0)⟩ ∧
    (if rf.isSome then 1 else 0) +
      (if ((env.archiveSelect (archQueryOf scene)).map env.identify).length < gs ∧ rf = none
       then 1 else 0) ≤ 1 := by
  refine ⟨scene_check_eq env scene gs hp hs rf hb hA hB, ?_⟩
  cases rf with
  | some r => simp
  | none =>
    simp only [Option.isSome_none, Bool.false_eq_true, if_false, Nat.zero_add]
    split <;> simp

/-- Witness for `scene_check_flags`: a scene with an undersized primary
group whose reference window strictly contains the buffered window, so
both neighbors are flagged in one reference query. -/
theorem scene_check_flags_witness :
    boundary_flags envFlag sceneC5 = .ok (3, true, true, none) ∧
    scene_check envFlag sceneC5 =
      .ok ⟨some "predecessor and successor acquisition for scene S1X.SAFE", 1⟩ := by
  refine ⟨by decide, ?_⟩
  have h := (scene_check_flags envFlag sceneC5 3 true true none (by decide)
    (fun q => by simp [envFlag]) (fun q => by simp [envFlag])).1
  exact h.trans (by decide)

theorem boundary_flags_isOk (env : CheckEnv) (scene : SceneID)
    (hA : ∀ q, env.asfRef q ≠ []) :
    ∃ gs hp hs rf, boundary_flags env scene = .ok (gs, hp, hs, rf) := by
  cases hres : boundary_flags env scene with
  | ok t => exact ⟨t.1, t.2.1, t.2.2.1, t.2.2.2, rfl⟩
  | error e =>
    exfalso
    by_cases hcond : (scene.sliceNumber == 0 || scene.totalSlices == 0) = true
    · have hrs : (env.asfRef (refQueryOf scene)).map TimeSpan.start ≠ [] := by
        simpa using hA (refQueryOf scene)
      have hrx : (env.asfRef (refQueryOf scene)).map TimeSpan.stop ≠ [] := by
        simpa using hA (refQueryOf scene)
      simp only [boundary_flags, hcond, if_true,
        pyMin_of_ne_nil _ hrs, pyMax_of_ne_nil _ hrx] at hres
      exact Except.noConfusion hres
    · simp only [Bool.not_eq_true] at hcond
      simp only [boundary_flags, hcond, Bool.false_eq_true, if_false] at hres
      exact Except.noConfusion hres

theorem collect_cons (env : CheckEnv) (s : SceneID) (rest : List SceneID)
    (r : SceneCheckResult) (hsc : scene_check env s = .ok r)
    (ih : collectMessages env rest = .ok (rest.filterMap (sceneMsg env))) :
    collectMessages env (s :: rest) = .ok ((s :: rest).filterMap (sceneMsg env)) := by
  have hmsg : sceneMsg env s = r.message := by simp [sceneMsg, hsc]
  rw [List.filterMap_cons, hmsg]
  simp only [collectMessages, hsc, ih]
  cases hm : r.message <;> simp

theorem collectMessages_eq (env : CheckEnv)
    (hA : ∀ q, env.asfRef q ≠ []) (hB : ∀ q, env.archiveSelect q ≠ []) :
    ∀ scenes : List SceneID,
      collectMessages env scenes = .ok (scenes.filterMap (sceneMsg env)) := by
  intro scenes
  induction scenes with
  | nil => rfl
  | cons s rest ih =>
    obtain ⟨gs, hp, hs, rf, hb⟩ := boundary_flags_isOk env s hA
    exact collect_cons env s rest _ (scene_check_eq env s gs hp hs rf hb hA hB) ih

/-- C6: over any scene list (against catalogs that answer every query
with at least one record, so that no low-level `ValueError` preempts the
scan), the completeness check returns normally when no scene is flagged,
and otherwise fails only after all scenes are checked, with one
aggregated error whose message joins every affected scene's report line
(each line naming the scene and its missing neighbor kinds). -/
theorem completeness_aggregation (env : CheckEnv) (scenes : List SceneID)
    (hA : ∀ q, env.asfRef q ≠ []) (hB : ∀ q, env.archiveSelect q ≠ []) :
    check_acquisition_completeness env scenes =
      (if scenes.filterMap (sceneMsg env) = [] then .ok ()
       else .error (.runtimeError ("missing the following scenes:\n - " ++
         String.intercalate "\n - " (scenes.filterMap (sceneMsg env))))) := by
  simp only [check_acquisition_completeness, collectMessages_eq env hA hB scenes]
  cases hm : scenes.filterMap (sceneMsg env) with
  | nil => simp
  | cons m ms => simp

/-- Witness for `completeness_aggregation`: an environment with a
complete group (normal return) and one with both neighbors missing for
the single scene (one aggregated error). -/
theorem completeness_aggregation_witness :
    (∀ q : RefQuery, envOkA.asfRef q ≠ []) ∧
    (∀ q : ArchQuery, envOkA.archiveSelect q ≠ []) ∧
    check_acquisition_completeness envOkA [sceneC5] = .ok () ∧
    check_acquisition_completeness envFlag [sceneC5] =
      .error (.runtimeError
        "missing the following scenes:\n - predecessor and successor acquisition for scene S1X.SAFE") := by
  refine ⟨fun q => by simp [envOkA], fun q => by simp [envOkA], ?_, ?_⟩
  · exact (completeness_aggregation envOkA [sceneC5]
      (fun q => by simp [envOkA]) (fun q => by simp [envOkA])).trans (by decide)
  · exact (completeness_aggregation envFlag [sceneC5]
      (fun q => by simp [envFlag]) (fun q => by simp [envFlag])).trans (by decide)

/-! ## String order and sorted-set lemmas (C7, C8) -/

theorem leChars_cons_iff (a b : Char) (as bs : List Char) :
    leChars (a :: as) (b :: bs) = true ↔
      a.toNat < b.toNat ∨ (a.toNat = b.toNat ∧ leChars as bs = true) := by
  by_cases h1 : a.toNat < b.toNat
  · simp [leChars, h1]
  · by_cases h2 : b.toNat < a.toNat
    · simp only [leChars, if_neg h1, if_pos h2, Bool.false_eq_true, false_iff]
      rintro (h | ⟨he, _⟩) <;> omega
    · have he : a.toNat = b.toNat := by omega
      simp [leChars, h1, h2, he]

theorem leChars_total : ∀ (x y : List Char), leChars x y = true ∨ leChars y x = true
  | [], _ => Or.inl rfl
  | _ :: _, [] => Or.inr rfl
  | a :: as, b :: bs => by
    rcases Nat.lt_trichotomy a.toNat b.toNat with h | h | h
    · exact Or.inl ((leChars_cons_iff a b as bs).mpr (Or.inl h))
    · rcases leChars_total as bs with hr | hr
      · exact Or.inl ((leChars_cons_iff a b as bs).mpr (Or.inr ⟨h, hr⟩))
      · exact Or.inr ((leChars_cons_iff b a bs as).mpr (Or.inr ⟨h.symm, hr⟩))
    · exact Or.inr ((leChars_cons_iff b a bs as).mpr (Or.inl h))

theorem leChars_trans : ∀ (x y z : List Char),
    leChars x y = true → leChars y z = true → leChars x z = true
  | [], _, _ => fun _ _ => rfl
  | _ :: _, [], _ => fun h _ => by simp [leChars] at h
  | _ :: _, _ :: _, [] => fun _ h => by simp [leChars] at h
  | a :: as, b :: bs, c :: cs => fun h1 h2 => by
    rw [leChars_cons_iff] at h1 h2 ⊢
    rcases h1 with h1 | ⟨e1, r1⟩
    · rcases h2 with h2 | ⟨e2, r2⟩
      · exact Or.inl (by omega)
      · exact Or.inl (by omega)
    · rcases h2 with h2 | ⟨e2, r2⟩
      · exact Or.inl (by omega)
      · exact Or.inr ⟨by omega, leChars_trans as bs cs r1 r2⟩

theorem strLe_total (a b : String) : StrLeR a b ∨ StrLeR b a :=
  leChars_total a.data b.data

theorem strLe_trans (a b c : String) : StrLeR a b → StrLeR b c → StrLeR a c :=
  leChars_trans a.data b.data c.data

theorem mem_pyDedup (a : String) : ∀ l, a ∈ pyDedup l ↔ a ∈ l := by
  intro l
  induction l with
  | nil => simp [pyDedup]
  | cons x xs ih =>
    by_cases hx : x ∈ xs
    · rw [pyDedup, if_pos hx, ih]
      constructor
      · exact fun h => List.mem_cons_of_mem x h
      · intro h
        rcases List.mem_cons.mp h with rfl | h2
        · exact hx
        · exact h2
    · rw [pyDedup, if_neg hx]
      simp [ih]

theorem nodup_pyDedup : ∀ l, (pyDedup l).Nodup := by
  intro l
  induction l with
  | nil => simp [pyDedup]
  | cons x xs ih =>
    by_cases hx : x ∈ xs
    · rw [pyDedup, if_pos hx]; exact ih
    · rw [pyDedup, if_neg hx]
      exact List.nodup_cons.mpr ⟨fun h => hx ((mem_pyDedup x xs).mp h), ih⟩

theorem mem_pySortedSet (a : String) (l : List String) :
    a ∈ pySortedSet l ↔ a ∈ l := by
  rw [pySortedSet, pySorted, List.mem_insertionSort]
  exact mem_pyDedup a l

theorem nodup_pySortedSet (l : List String) : (pySortedSet l).Nodup :=
  ((List.perm_insertionSort StrLeR (pyDedup l)).nodup_iff).mpr (nodup_pyDedup l)

theorem sorted_pySortedSet (l : List String) : (pySortedSet l).Sorted StrLeR := by
  haveI : IsTotal String StrLeR := ⟨strLe_total⟩
  haveI : IsTrans String StrLeR := ⟨fun a b c => strLe_trans a b c⟩
  exact List.sorted_insertionSort StrLeR (pyDedup l)

theorem foldl_append_flatten {α : Type} (f : α → List String) :
    ∀ (l : List α) (init : List String),
      l.foldl (fun acc a => acc ++ f a) init = init ++ (l.map f).flatten := by
  intro l
  induction l with
  | nil => intro init; simp
  | cons a as ih =>
    intro init
    simp only [List.foldl_cons, ih, List.map_cons, List.flatten_cons, List.append_assoc]

/-- C7: every successful `scene_select` result list is duplicate-free and
sorted ascending by location (code-point order); and when an explicit
tile list is supplied, the returned tile list is exactly that input and
the scene list is the sorted de-duplication of one accumulated search per
tile (each constrained to that tile's geometry). -/
theorem scene_select_ordered :
    (∀ (Geom Aux : Type) (env : SelEnv Geom Aux) (t : Option (List String))
       (g : Option String) (q : SelQuery Aux) (lst ts : List String),
      scene_select env t g q = .ok (lst, ts) → lst.Nodup ∧ lst.Sorted StrLeR) ∧
    (∀ (Geom Aux : Type) (env : SelEnv Geom Aux) (ts : List String)
       (g : Option String) (q : SelQuery Aux),
      scene_select env (some ts) g q =
        .ok (pySortedSet (((ts.map env.tileGeom).map
          (fun geo => env.selectA (some geo) q)).flatten), ts) ∧
      ∀ x, x ∈ pySortedSet (((ts.map env.tileGeom).map
          (fun geo => env.selectA (some geo) q)).flatten) ↔
        ∃ tile ∈ ts, x ∈ env.selectA (some (env.tileGeom tile)) q) := by
  constructor
  · intro Geom Aux env t g q lst ts h
    cases t with
    | some ts0 =>
      simp only [scene_select, Except.ok.injEq, Prod.mk.injEq] at h
      obtain ⟨h1, h2⟩ := h
      exact ⟨h1 ▸ nodup_pySortedSet _, h1 ▸ sorted_pySortedSet _⟩
    | none =>
      cases g with
      | some gf =>
        simp only [scene_select, Except.ok.injEq, Prod.mk.injEq] at h
        obtain ⟨h1, h2⟩ := h
        exact ⟨h1 ▸ nodup_pySortedSet _, h1 ▸ sorted_pySortedSet _⟩
      | none =>
        simp only [scene_select] at h
        by_cases hp : (env.selectA none q).isEmpty
        · rw [if_pos hp] at h; exact Except.noConfusion h
        · rw [if_neg hp] at h
          simp only [Except.ok.injEq, Prod.mk.injEq] at h
          obtain ⟨h1, h2⟩ := h
          exact ⟨h1 ▸ nodup_pySortedSet _, h1 ▸ sorted_pySortedSet _⟩
  · intro Geom Aux env ts g q
    constructor
    · simp only [scene_select]
      rw [foldl_append_flatten (fun geo => env.selectA (some geo) q) (ts.map env.tileGeom) []]
      simp
    · intro x
      rw [mem_pySortedSet]
      simp only [List.mem_flatten, List.mem_map]
      constructor
      · rintro ⟨l, ⟨geo, ⟨tile, htile, rfl⟩, rfl⟩, hx⟩
        exact ⟨tile, htile, hx⟩
      · rintro ⟨tile, htile, hx⟩
        exact ⟨env.selectA (some (env.tileGeom tile)) q,
          ⟨env.tileGeom tile, ⟨tile, htile, rfl⟩, rfl⟩, hx⟩

/-- Witness for `scene_select_ordered`: one explicit tile whose search
returns an unsorted selection; the result is sorted and duplicate-free
with the tile list unchanged. -/
theorem scene_select_ordered_witness :
    scene_select envW7 (some ["T1"]) none ⟨none, none, ()⟩ = .ok (["/a", "/b"], ["T1"]) ∧
    ((["/a", "/b"] : List String).Nodup ∧ (["/a", "/b"] : List String).Sorted StrLeR) := by
  refine ⟨by decide, ?_⟩
  exact scene_select_ordered.1 Nat Unit envW7 (some ["T1"]) none ⟨none, none, ()⟩
    ["/a", "/b"] ["T1"] (by decide)

/-- C8: with neither tiles nor AOI geometry supplied, the returned tile
list is derived from the phase-1 scene footprints only, and the scene
list holds exactly the members of the per-tile phase-2 searches, each run
with the widened window [min(start) - 1 minute, max(stop) + 1 minute]
computed over the phase-1 scenes and that tile's geometry. -/
theorem scene_select_two_phase (Geom Aux : Type) (env : SelEnv Geom Aux)
    (q : SelQuery Aux) (lst ts : List String)
    (h : scene_select env none none q = .ok (lst, ts)) :
    (let phase1 := env.selectA none q
     let scenes := sortByStart (phase1.map env.identify)
     let vec := env.tileFromAoiGeoms (scenes.map SceneRec.geom)
     let q2 : SelQuery Aux :=
       { mindate := some (pyMinD (scenes.map SceneRec.start) - 60),
         maxdate := some (pyMaxD (scenes.map SceneRec.stop) + 60),
         rest := q.rest }
     ts = vec.map TileVec.mgrs ∧
     ∀ x, x ∈ lst ↔ ∃ tile ∈ vec, x ∈ env.selectA (some tile.geom) q2) := by
  simp only [scene_select] at h
  by_cases hp : (env.selectA none q).isEmpty
  · rw [if_pos hp] at h; exact Except.noConfusion h
  · rw [if_neg hp] at h
    simp only [Except.ok.injEq, Prod.mk.injEq] at h
    obtain ⟨h1, h2⟩ := h
    refine ⟨h2.symm, ?_⟩
    intro x
    rw [← h1, mem_pySortedSet,
      foldl_append_flatten
        (fun tile : TileVec Geom => env.selectA (some tile.geom)
          { mindate := some (pyMinD ((sortByStart ((env.selectA none q).map
              env.identify)).map SceneRec.start) - 60),
            maxdate := some (pyMaxD ((sortByStart ((env.selectA none q).map
              env.identify)).map SceneRec.stop) + 60),
            rest := q.rest })
        (env.tileFromAoiGeoms ((sortByStart ((env.selectA none q).map
          env.identify)).map SceneRec.geom)) []]
    simp only [List.nil_append, List.mem_flatten, List.mem_map]
    constructor
    · rintro ⟨l, ⟨tile, htile, rfl⟩, hx⟩
      exact ⟨tile, htile, hx⟩
    · rintro ⟨tile, htile, hx⟩
      exact ⟨_, ⟨tile, htile, rfl⟩, hx⟩

/-- Witness for `scene_select_two_phase`: a one-scene phase-1 selection
deriving one tile, whose phase-2 search returns two scenes. -/
theorem scene_select_two_phase_witness :
    scene_select envW8 none none ⟨none, none, ()⟩ = .ok (["/x", "/y"], ["T1"]) ∧
    (["T1"] : List String) =
      (envW8.tileFromAoiGeoms ((sortByStart ((envW8.selectA none
        ⟨none, none, ()⟩).map envW8.identify)).map SceneRec.geom)).map TileVec.mgrs := by
  refine ⟨by decide, ?_⟩
  exact (scene_select_two_phase Nat Unit envW8 ⟨none, none, ()⟩
    ["/x", "/y"] ["T1"] (by decide)).1

/-! ## Duplicate resolution (C1) -/

theorem pickMax_mem (f : String → Nat) : ∀ (x : String) (l : List String),
    pickMax f x l ∈ x :: l
  | x, [] => by simp [pickMax]
  | x, y :: ys => by
    rw [pickMax]
    by_cases h : f x < f y
    · rw [if_pos h]
      rcases List.mem_cons.mp (pickMax_mem f y ys) with he | hm
      · rw [he]; exact List.mem_cons_of_mem _ (List.mem_cons_self y ys)
      · exact List.mem_cons_of_mem _ (List.mem_cons_of_mem _ hm)
    · rw [if_neg h]
      rcases List.mem_cons.mp (pickMax_mem f x ys) with he | hm
      · rw [he]; exact List.mem_cons_self x (y :: ys)
      · exact List.mem_cons_of_mem _ (List.mem_cons_of_mem _ hm)

theorem pickMax_max (f : String → Nat) : ∀ (x : String) (l : List String) (y : String),
    y ∈ x :: l → f y ≤ f (pickMax f x l)
  | x, [], y => by
    intro hy
    rcases List.mem_cons.mp hy with rfl | hy2
    · simp [pickMax]
    · cases hy2
  | x, z :: zs, y => by
    intro hy
    rw [pickMax]
    by_cases h : f x < f z
    · rw [if_pos h]
      rcases List.mem_cons.mp hy with rfl | hy2
      · exact le_trans (Nat.le_of_lt h)
          (pickMax_max f z zs z (List.mem_cons_self z zs))
      · exact pickMax_max f z zs y hy2
    · rw [if_neg h]
      rcases List.mem_cons.mp hy with rfl | hy2
      · exact pickMax_max f _ zs _ (List.mem_cons_self _ zs)
      · rcases List.mem_cons.mp hy2 with rfl | hy3
        · exact le_trans (Nat.le_of_not_lt h)
            (pickMax_max f x zs x (List.mem_cons_self x zs))
        · exact pickMax_max f x zs y (List.mem_cons_of_mem _ hy3)

theorem groupSpan_eq (t0 : String × String × String) :
    ∀ l : List String, (∀ y ∈ l, (tripleOf y).isSome) →
      groupSpan t0 l =
        some (l.takeWhile (fun y => decide (tripleOf y = some t0)),
              l.dropWhile (fun y => decide (tripleOf y = some t0))) := by
  intro l
  induction l with
  | nil => intro _; rfl
  | cons y ys ih =>
    intro hall
    have hy := hall y (by simp)
    rcases Option.isSome_iff_exists.mp hy with ⟨t, ht⟩
    by_cases hEq : t = t0
    · subst hEq
      have hrec := ih (fun s hs => hall s (by simp [hs]))
      simp only [groupSpan, ht, if_pos rfl, hrec]
      simp [List.takeWhile_cons, List.dropWhile_cons, ht]
    · simp only [groupSpan, ht, if_neg hEq]
      simp [List.takeWhile_cons, List.dropWhile_cons, ht, hEq]

theorem sameTriple_funext (x y : String) (h : sameTriple x y = true) :
    sameTriple x = sameTriple y := by
  funext z
  have he : tripleOf x = tripleOf y := of_decide_eq_true h
  simp only [sameTriple, he]

theorem pred_eq_sameTriple (x : String) (t0 : String × String × String)
    (hx : tripleOf x = some t0) :
    (fun y => decide (tripleOf y = some t0)) = sameTriple x := by
  funext y
  simp only [sameTriple, hx]
  exact decide_eq_decide.mpr eq_comm

theorem runsBy_cons_eq : ∀ (x : String) (l : List String),
    runsBy sameTriple (x :: l) =
      (x :: l.takeWhile (sameTriple x)) ::
        runsBy sameTriple (l.dropWhile (sameTriple x)) := by
  intro x l
  induction l generalizing x with
  | nil => rfl
  | cons y ys ih =>
    have hrec := ih y
    by_cases hxy : sameTriple x y = true
    · have hfx : sameTriple x = sameTriple y := sameTriple_funext x y hxy
      simp only [runsBy, hrec, hxy, if_true, List.takeWhile_cons, List.dropWhile_cons]
      rw [hfx]
    · have hxy' : sameTriple x y = false := by
        revert hxy; cases sameTriple x y <;> simp
      simp only [runsBy, hrec, hxy', Bool.false_eq_true, if_false,
        List.takeWhile_cons, List.dropWhile_cons]

theorem runsBy_flatten (eqb : String → String → Bool) :
    ∀ l, (runsBy eqb l).flatten = l := by
  intro l
  induction l with
  | nil => rfl
  | cons x xs ih =>
    cases hxs : xs with
    | nil => rfl
    | cons y ys =>
      rw [hxs] at ih
      cases hr : runsBy eqb (y :: ys) with
      | nil => rw [hr] at ih; simp at ih
      | cons r rs =>
        rw [hr] at ih
        simp only [List.flatten_cons] at ih
        by_cases he : eqb x y = true
        · simp only [runsBy, hr, he, if_true, List.flatten_cons, List.cons_append]
          rw [ih]
        · have he' : eqb x y = false := by
            revert he; cases eqb x y <;> simp
          simp only [runsBy, hr, he', Bool.false_eq_true, if_false, List.flatten_cons]
          simp [ih]

theorem fdGo_spec (f : String → Nat) :
    ∀ (fuel : Nat) (l : List String), l.length ≤ fuel →
      (∀ s ∈ l, (tripleOf s).isSome) →
      ∃ out, fdGo f fuel l = some out ∧
        out.length = (runsBy sameTriple l).length ∧
        ∀ p ∈ out.zip (runsBy sameTriple l),
          p.1 ∈ p.2 ∧ (∀ y ∈ p.2, f y ≤ f p.1) ∧ (p.2.length = 1 → p.2 = [p.1]) := by
  intro fuel
  induction fuel with
  | zero =>
    intro l hlen hall
    have hnil : l = [] := List.length_eq_zero.mp (Nat.le_zero.mp hlen)
    subst hnil
    exact ⟨[], rfl, rfl, by intro p hp; cases hp⟩
  | succ n ih =>
    intro l hlen hall
    cases l with
    | nil => exact ⟨[], rfl, rfl, by intro p hp; cases hp⟩
    | cons x rest =>
      have hx : (tripleOf x).isSome := hall x (by simp)
      rcases Option.isSome_iff_exists.mp hx with ⟨t0, ht0⟩
      have hallrest : ∀ s ∈ rest, (tripleOf s).isSome := fun s hs => hall s (by simp [hs])
      have hgs := groupSpan_eq t0 rest hallrest
      rw [pred_eq_sameTriple x t0 ht0] at hgs
      have hdroplen : (rest.dropWhile (sameTriple x)).length ≤ n := by
        have h1 : (rest.dropWhile (sameTriple x)).length ≤ rest.length :=
          (List.dropWhile_sublist _).length_le
        have h2 : rest.length + 1 ≤ n + 1 := by simpa using hlen
        omega
      have halldrop : ∀ s ∈ rest.dropWhile (sameTriple x), (tripleOf s).isSome :=
        fun s hs => hallrest s ((List.dropWhile_sublist _).subset hs)
      rcases ih (rest.dropWhile (sameTriple x)) hdroplen halldrop with
        ⟨out', hout', hlen', hprop'⟩
      refine ⟨(if rest.takeWhile (sameTriple x) = [] then x
               else pickMax f x (rest.takeWhile (sameTriple x))) :: out', ?_, ?_, ?_⟩
      · simp only [fdGo, ht0, hgs, hout']
      · rw [runsBy_cons_eq]
        simp [hlen']
      · rw [runsBy_cons_eq]
        intro p hp
        simp only [List.zip_cons_cons, List.mem_cons] at hp
        rcases hp with rfl | hp2
        · by_cases hg : rest.takeWhile (sameTriple x) = []
          · rw [hg]
            simp only [if_pos rfl]
            refine ⟨List.mem_singleton_self x, ?_, fun _ => rfl⟩
            intro y hy
            rcases List.mem_singleton.mp hy with rfl
            exact le_refl _
          · rw [if_neg hg]
            refine ⟨pickMax_mem f x _, fun y hy => pickMax_max f x _ y hy, ?_⟩
            intro hlen1
            exfalso
            have : (rest.takeWhile (sameTriple x)).length = 0 := by
              simpa using hlen1
            exact hg (List.length_eq_zero.mp this)
        · exact hprop' p hp2

/-- Counterexample to C1 as stated: three locations whose basenames all
match the pattern, with two same-triple entries lying in directories that
sort apart (`/a/` and `/z/`).  Duplicate resolution keeps BOTH, refuting
"exactly one entry per distinct triple"; the output also follows the
sorted order, not the input order (the input starts with the `/z/`
entry). -/
theorem filter_duplicates_counterexample :
    filter_duplicates (fun _ => 0) [dupZ, dupA, dupM] = some [dupA, dupM, dupZ] ∧
    tripleOf dupA = tripleOf dupZ ∧ dupA ≠ dupZ ∧
    (∀ s ∈ [dupZ, dupA, dupM], (tripleOf s).isSome) := by
  exact ⟨by decide, by decide, by decide, by decide⟩

/-- C1 (amended): for every input whose basenames all match the
(instrument-token, start, stop) pattern, `_filter_duplicates` succeeds
and returns exactly one survivor per maximal run of consecutive
same-triple entries of the SORTED sequence (runs compared against the run
head's triple; they concatenate back to the sorted sequence, so the
output follows sorted order, not input order): each survivor belongs to
its run and carries the maximal manifest processing time in it, and a
singleton run passes through unchanged.  One entry per distinct triple
only follows when equal-triple entries are adjacent after sorting;
same-triple entries that sort apart each survive. -/
theorem filter_duplicates_spec (f : String → Nat) (scenes : List String)
    (hall : ∀ s ∈ scenes, (tripleOf s).isSome) :
    ∃ out, filter_duplicates f scenes = some out ∧
      (runsBy sameTriple (pySorted scenes)).flatten = pySorted scenes ∧
      out.length = (runsBy sameTriple (pySorted scenes)).length ∧
      ∀ p ∈ out.zip (runsBy sameTriple (pySorted scenes)),
        p.1 ∈ p.2 ∧ (∀ y ∈ p.2, f y ≤ f p.1) ∧ (p.2.length = 1 → p.2 = [p.1]) := by
  have hall' : ∀ s ∈ pySorted scenes, (tripleOf s).isSome := by
    intro s hs
    exact hall s ((List.mem_insertionSort StrLeR).mp hs)
  rcases fdGo_spec f (pySorted scenes).length (pySorted scenes) (le_refl _) hall' with
    ⟨out, h1, h2, h3⟩
  exact ⟨out, h1, runsBy_flatten sameTriple (pySorted scenes), h2, h3⟩

/-- Witness for `filter_duplicates_spec`: the concrete three-element
input of the counterexample satisfies the all-basenames-match hypothesis
and resolution succeeds with one survivor per sorted-sequence run. -/
theorem filter_duplicates_spec_witness :
    (∀ s ∈ [dupZ, dupA, dupM], (tripleOf s).isSome) ∧
    ∃ out, filter_duplicates (fun _ => 0) [dupZ, dupA, dupM] = some out ∧
      out.length = (runsBy sameTriple (pySorted [dupZ, dupA, dupM])).length := by
  refine ⟨by decide, ?_⟩
  rcases filter_duplicates_spec (fun _ => 0) [dupZ, dupA, dupM] (by decide) with
    ⟨out, h1, h2, h3, h4⟩
  exact ⟨out, h1, h3⟩

/-- Witness for `retry_policy`: a backend that fails transiently twice and
succeeds on the third attempt; a backend that always fails transiently; a
backend that fails fatally on its second attempt. -/
theorem retry_policy_witness :
    open_catalog (fun i => if i < 3 then Outcome.transient i else .ok 42) = (.ok 42, 3, 2) ∧
    open_catalog (fun i => (Outcome.transient i : Outcome Nat Nat)) = (.transient 300, 300, 299) ∧
    open_catalog (fun i => if i < 2 then Outcome.transient i else (.fatal 7 : Outcome Nat Nat)) =
      (.fatal 7, 2, 1) := by
  refine ⟨?_, ?_, ?_⟩
  · have h := (retry_policy.1 Nat Nat (fun i => if i < 3 then Outcome.transient i else .ok 42)
      (fun i => i) 42 3 (by omega) (by omega)
      (by intro j hj1 hj2; simp only [if_pos (by omega : j < 3)])
      (by simp)).1
    simpa using h
  · have h := (retry_policy.2.1 Nat Nat (fun i => Outcome.transient i) (fun i => i)
      (fun j => rfl)).1
    simpa using h
  · have h := (retry_policy.2.2 Nat Nat (fun i => if i < 2 then Outcome.transient i else .fatal 7)
      (fun i => i) 7 2 (by omega) (by omega)
      (by intro j hj1 hj2; simp only [if_pos (by omega : j < 2)])
      (by simp)).1
    simpa using h

end S1NRB
